import Mathlib

/-!
Verification of the XPath extraction/translation core.

Source files modelled:
  - src/backend/xpath_translator.py (class XPathTranslator)
  - src/backend/xpath_parser.py (class XPathParser)

Python strings are modelled as `List Char`; all inputs of interest are ASCII,
so `str.lower`, `str.strip` and the regex classes `[a-z]`, `[A-Z]`, `\s` are
modelled over the ASCII ranges they denote there.
-/

namespace XP

abbrev Str := List Char

def lit (s : String) : Str := s.toList

/-- Python whitespace as used by `str.strip()` / regex `\s` on ASCII text. -/
def isSpace (c : Char) : Bool :=
  c = ' ' || c = '\t' || c = '\n' || c = '\r' || c = '\x0b' || c = '\x0c'

/-- ASCII lowercasing, as `str.lower()` does on the ASCII letters. -/
def lowerChar (c : Char) : Char :=
  match c with
  | 'A' => 'a' | 'B' => 'b' | 'C' => 'c' | 'D' => 'd' | 'E' => 'e' | 'F' => 'f'
  | 'G' => 'g' | 'H' => 'h' | 'I' => 'i' | 'J' => 'j' | 'K' => 'k' | 'L' => 'l'
  | 'M' => 'm' | 'N' => 'n' | 'O' => 'o' | 'P' => 'p' | 'Q' => 'q' | 'R' => 'r'
  | 'S' => 's' | 'T' => 't' | 'U' => 'u' | 'V' => 'v' | 'W' => 'w' | 'X' => 'x'
  | 'Y' => 'y' | 'Z' => 'z' | other => other

/-- ASCII uppercasing, for the first letter in `str.capitalize()`. -/
def upperChar (c : Char) : Char :=
  match c with
  | 'a' => 'A' | 'b' => 'B' | 'c' => 'C' | 'd' => 'D' | 'e' => 'E' | 'f' => 'F'
  | 'g' => 'G' | 'h' => 'H' | 'i' => 'I' | 'j' => 'J' | 'k' => 'K' | 'l' => 'L'
  | 'm' => 'M' | 'n' => 'N' | 'o' => 'O' | 'p' => 'P' | 'q' => 'Q' | 'r' => 'R'
  | 's' => 'S' | 't' => 'T' | 'u' => 'U' | 'v' => 'V' | 'w' => 'W' | 'x' => 'X'
  | 'y' => 'Y' | 'z' => 'Z' | other => other

def lowerStr (s : Str) : Str := s.map lowerChar

/-- `str.strip(chars)`: drop the characters satisfying `p` from both ends. -/
def stripWhile (p : Char → Bool) (s : Str) : Str :=
  ((s.dropWhile p).reverse.dropWhile p).reverse

/-- Python `str.strip()` (no argument: whitespace). -/
def pyStrip (s : Str) : Str := stripWhile isSpace s

/-- Python `str.rstrip(c)` for a single character: drop every trailing `c`. -/
def rstripChar (c : Char) (s : Str) : Str :=
  (s.reverse.dropWhile (· = c)).reverse

/-- Python `str.capitalize()`: first character uppercased, the rest lowercased. -/
def pyCapitalize : Str → Str
  | [] => []
  | c :: t => upperChar c :: t.map lowerChar

/-- Python `str.isdigit()` on ASCII: non-empty and all characters are digits. -/
def pyIsdigit (s : Str) : Bool := !s.isEmpty && s.all Char.isDigit

/-- Python `sep.join(parts)` for list-of-characters strings. -/
def pyJoin (sep : Str) : List Str → Str
  | [] => []
  | [x] => x
  | x :: y :: t => x ++ sep ++ pyJoin sep (y :: t)

/-- Decimal rendering of a number, for f-string interpolation of step indices. -/
def natToStr (n : Nat) : Str := (Nat.repr n).toList

/-- Python `needle in haystack` (substring containment). -/
def isSub (p : Str) : Str → Bool
  | [] => p.isEmpty
  | c :: t => p.isPrefixOf (c :: t) || isSub p t

/-- Python `s.split(sep, 1)` when `sep` occurs in `s`: the text before the
first occurrence and the text after it.  `none` when `sep` does not occur
( Python then returns the one-element list `[s]`). -/
def splitOnce (p : Str) : Str → Option (Str × Str)
  | [] => if p.isEmpty then some ([], []) else none
  | c :: t =>
    if p.isPrefixOf (c :: t) then some ([], (c :: t).drop p.length)
    else (splitOnce p t).map (fun pr => (c :: pr.1, pr.2))

/-- `re.sub(r"([a-z])([A-Z])", r"\1 \2", s)`: insert a space at each
lower-to-upper boundary.  The regex scans left to right; a match's second
character is an upper-case letter, which can never begin the next match, so
the plain one-character walk below is equivalent. -/
def camelSplit : Str → Str
  | [] => []
  | [c] => [c]
  | a :: b :: t =>
    if a.isLower && b.isUpper then a :: ' ' :: camelSplit (b :: t)
    else a :: camelSplit (b :: t)

theorem stripWhile_length_le (p : Char → Bool) (s : Str) :
    (stripWhile p s).length ≤ s.length := by
  unfold stripWhile
  have h1 := (List.dropWhile_suffix (l := s) p).length_le
  have h2 := (List.dropWhile_suffix (l := (s.dropWhile p).reverse) p).length_le
  simp only [List.length_reverse] at *
  omega

theorem isSub_infix_iff (p s : Str) : isSub p s = true ↔ p <:+: s := by
  induction s with
  | nil =>
    simp [isSub, List.isEmpty_iff, List.infix_nil]
  | cons c t ih =>
    rw [List.infix_cons_iff]
    simp [isSub, ih, List.isPrefixOf_iff_prefix, Bool.or_eq_true]

theorem isSub_of_isSub_isSub {a b s : Str} (h1 : isSub a b = true)
    (h2 : isSub b s = true) : isSub a s = true := by
  rw [isSub_infix_iff] at *
  exact h1.trans h2

theorem splitOnce_isSome_iff (p s : Str) : (splitOnce p s).isSome = isSub p s := by
  induction s with
  | nil =>
    by_cases h : p.isEmpty <;> simp [splitOnce, isSub, h]
  | cons c t ih =>
    by_cases h : p.isPrefixOf (c :: t) <;> simp [splitOnce, isSub, h, ih]

theorem splitOnce_none_of_not_sub {p s : Str} (h : isSub p s = false) :
    splitOnce p s = none := by
  have := splitOnce_isSome_iff p s
  rw [h] at this
  exact Option.not_isSome_iff_eq_none.mp (by simp [this])

theorem lowerChar_space {c x : Char} (h : lowerChar c = x) (hx : isSpace x = true) :
    isSpace c = true := by
  unfold lowerChar at h
  split at h <;> subst h
  all_goals first | assumption | (revert hx; decide)

theorem lowerChar_not_space {c x : Char} (h : lowerChar c = x) (hx : isSpace x = false) :
    isSpace c = false := by
  unfold lowerChar at h
  split at h <;> subst h
  all_goals first | assumption | (revert hx; decide)

/-- One attempt to match the regex `\s+tok\s+` (case-insensitive, `tok` a fixed
lower-case word) at the very start of `s`: greedy `\s+` takes the maximal
whitespace run, `tok` must follow it directly (its letters are not whitespace,
so backtracking cannot help), then at least one further whitespace character,
again taken greedily.  Returns the remainder after the whole match. -/
def matchSep (tok : Str) (s : Str) : Option Str :=
  if (s.takeWhile isSpace).isEmpty then none
  else
    if ((s.drop (s.takeWhile isSpace).length).take tok.length).map lowerChar = tok then
      if (((s.drop (s.takeWhile isSpace).length).drop tok.length).takeWhile
          isSpace).isEmpty then none
      else
        some (((s.drop (s.takeWhile isSpace).length).drop tok.length).drop
            (((s.drop (s.takeWhile isSpace).length).drop tok.length).takeWhile isSpace).length)
    else none

/-- A separator match consumes at least `tok.length + 2` characters. -/
theorem matchSep_bound {tok s r : Str} (h : matchSep tok s = some r) :
    r.length + (tok.length + 2) ≤ s.length := by
  unfold matchSep at h
  split_ifs at h with hw hcmp hw2
  have hw1 : 1 ≤ (s.takeWhile isSpace).length := by
    cases hww : s.takeWhile isSpace with
    | nil => rw [hww] at hw; simp at hw
    | cons a l => simp [hww]
  have hwle : (s.takeWhile isSpace).length ≤ s.length :=
    (List.takeWhile_prefix _).length_le
  have htok : tok.length ≤ (s.drop (s.takeWhile isSpace).length).length := by
    have hc := congrArg List.length hcmp
    simp at hc
    simp only [List.length_drop]
    omega
  have hw2' : 1 ≤ (((s.drop (s.takeWhile isSpace).length).drop tok.length).takeWhile
      isSpace).length := by
    cases hww : ((s.drop (s.takeWhile isSpace).length).drop tok.length).takeWhile
        isSpace with
    | nil => rw [hww] at hw2; simp at hw2
    | cons a l => simp [hww]
  have hw2le : (((s.drop (s.takeWhile isSpace).length).drop tok.length).takeWhile
      isSpace).length ≤ ((s.drop (s.takeWhile isSpace).length).drop tok.length).length :=
    (List.takeWhile_prefix _).length_le
  have hr := Option.some.inj h
  subst hr
  simp only [List.length_drop] at htok hw2le ⊢
  omega

/-- Leftmost match of `\s+tok\s+` in `s`: splits `s` into the text before the
first separator match and the text after it. -/
def findSep (tok : Str) : Str → Option (Str × Str)
  | [] => none
  | c :: t =>
    match matchSep tok (c :: t) with
    | some r => some ([], r)
    | none => (findSep tok t).map (fun pr => (c :: pr.1, pr.2))

theorem findSep_bound {tok : Str} :
    ∀ {s pr}, findSep tok s = some pr →
      pr.1.length + (tok.length + 2) + pr.2.length ≤ s.length := by
  intro s
  induction s with
  | nil => intro pr h; simp [findSep] at h
  | cons c t ih =>
    intro pr h
    rw [findSep] at h
    cases hms : matchSep tok (c :: t) with
    | some r =>
      rw [hms] at h
      simp at h
      have hb := matchSep_bound hms
      rw [← h]
      simp at hb ⊢
      omega
    | none =>
      rw [hms] at h
      simp at h
      obtain ⟨q1, q2, hq, hpr⟩ := h
      subst hpr
      have hb := ih hq
      simp at hb ⊢
      omega

/-- `re.split(r"\s+tok\s+", s, flags=re.IGNORECASE)` for the fixed lower-case
word `tok`: repeatedly split at the leftmost separator match. -/
def reSplitIC (tok : Str) (s : Str) : List Str :=
  match hfind : findSep tok s with
  | none => [s]
  | some pr => pr.1 :: reSplitIC tok pr.2
termination_by s.length
decreasing_by have := findSep_bound hfind; omega

theorem reSplitIC_ne_nil (tok s : Str) : reSplitIC tok s ≠ [] := by
  rw [reSplitIC.eq_def]
  cases findSep tok s <;> simp

theorem reSplitIC_length_aux (tok : Str) :
    ∀ n s, s.length ≤ n → ∀ p ∈ reSplitIC tok s, p.length ≤ s.length := by
  intro n
  induction n with
  | zero =>
    intro s hs p hp
    rw [reSplitIC.eq_def] at hp
    cases hfind : findSep tok s with
    | none => rw [hfind] at hp; simp at hp; simp [hp]
    | some pr => have := findSep_bound hfind; omega
  | succ m ih =>
    intro s hs p hp
    rw [reSplitIC.eq_def] at hp
    cases hfind : findSep tok s with
    | none => rw [hfind] at hp; simp at hp; simp [hp]
    | some pr =>
      rw [hfind] at hp
      simp at hp
      have hb := findSep_bound hfind
      rcases hp with rfl | hp
      · omega
      · have := ih pr.2 (by omega) p hp
        omega

theorem reSplitIC_piece_lt {tok s : Str} {pr} (hfind : findSep tok s = some pr)
    {p : Str} (hp : p ∈ reSplitIC tok s) : p.length < s.length := by
  rw [reSplitIC.eq_def, hfind] at hp
  simp at hp
  have hb := findSep_bound hfind
  rcases hp with rfl | hp
  · omega
  · have := reSplitIC_length_aux tok pr.2.length pr.2 le_rfl p hp
    omega

theorem matchSep_isSome_of_prefix {tok : Str} (htne : tok ≠ [])
    (hth : isSpace tok.headI = false) (s : Str)
    (h : ([' '] ++ tok ++ [' ']).isPrefixOf (lowerStr s) = true) :
    (matchSep tok s).isSome = true := by
  rw [List.isPrefixOf_iff_prefix] at h
  obtain ⟨rest, hrest⟩ := h
  have hmap : s.map lowerChar = ' ' :: (tok ++ ([' '] ++ rest)) := by
    simpa [lowerStr] using hrest.symm
  obtain ⟨c, t, rfl, hc, ht⟩ := List.map_eq_cons_iff.mp hmap
  obtain ⟨u, v, rfl, hu, hv⟩ := List.append_eq_map_iff.mp ht.symm
  obtain ⟨d, v', rfl, hd, hv'⟩ := List.map_eq_cons_iff.mp hv
  obtain ⟨e, u', rfl⟩ : ∃ e u', u = e :: u' := by
    cases u with
    | nil => exact absurd hu.symm (by simpa using htne)
    | cons e u' => exact ⟨e, u', rfl⟩
  have hcs : isSpace c = true := lowerChar_space hc (by decide)
  have hes : isSpace e = false := by
    have hhead : lowerChar e = tok.headI := by
      cases tok with
      | nil => exact absurd rfl htne
      | cons a l => simpa using congrArg List.headI hu
    exact lowerChar_not_space hhead hth
  have hds : isSpace d = true := lowerChar_space hd (by decide)
  have hulen : u'.length + 1 = tok.length := by
    have := congrArg List.length hu
    simpa using this
  have htw : (c :: (e :: u' ++ d :: v')).takeWhile isSpace = [c] := by
    simp [List.takeWhile_cons, hcs, hes]
  have hdrop1 : (c :: (e :: u' ++ d :: v')).drop 1 = e :: u' ++ d :: v' := rfl
  have htake : (e :: u' ++ d :: v').take tok.length = e :: u' := by
    rw [← hulen]
    simpa using List.take_left (e :: u') (d :: v')
  have hdrop2 : (e :: u' ++ d :: v').drop tok.length = d :: v' := by
    rw [← hulen]
    simpa using List.drop_left (e :: u') (d :: v')
  unfold matchSep
  rw [htw]
  simp only [List.length_cons, List.length_nil, Nat.zero_add, List.isEmpty_cons,
    List.drop_one, List.tail_cons, hdrop1, htake, hdrop2]
  simp [hu, List.takeWhile_cons, hds]

theorem findSep_isSome_of_sub {tok : Str} (htne : tok ≠ [])
    (hth : isSpace tok.headI = false) :
    ∀ s, isSub ([' '] ++ tok ++ [' ']) (lowerStr s) = true → (findSep tok s).isSome = true := by
  intro s
  induction s with
  | nil =>
    intro h
    simp [lowerStr, isSub, List.isEmpty_iff] at h
  | cons c t ih =>
    intro h
    cases hms : matchSep tok (c :: t) with
    | some r => simp [findSep, hms]
    | none =>
      have h' : isSub ([' '] ++ tok ++ [' ']) (lowerStr t) = true := by
        have hls : lowerStr (c :: t) = lowerChar c :: lowerStr t := rfl
        rw [hls] at h
        rw [isSub] at h
        rcases Bool.or_eq_true_iff.mp h with hpre | hsub
        · have := matchSep_isSome_of_prefix htne hth (c :: t) (by
            simpa [lowerStr] using hpre)
          rw [hms] at this
          simp at this
        · exact hsub
      have hrec := ih h'
      rw [findSep]
      rw [hms]
      cases hft : findSep tok t with
      | none => rw [hft] at hrec; simp at hrec
      | some pr => simp

/-! ## The translator (src/backend/xpath_translator.py, class XPathTranslator) -/

/-- `self.operators`, in insertion order (Python dicts iterate in insertion
order, and the condition renderer scans this table first-match-first). -/
def operators : List (Str × Str) :=
  [(lit "=", lit "equals"),
   (lit "!=", lit "does not equal"),
   (lit ">", lit "is greater than"),
   (lit ">=", lit "is greater than or equal to"),
   (lit "<", lit "is less than"),
   (lit "<=", lit "is less than or equal to"),
   (lit "and", lit "AND"),
   (lit "or", lit "OR"),
   (lit "not", lit "NOT")]

/-- `self.functions`, in insertion order. -/
def functions : List (Str × Str) :=
  [(lit "count", lit "count the number of"),
   (lit "sum", lit "calculate the sum of"),
   (lit "concat", lit "combine"),
   (lit "substring", lit "extract part of"),
   (lit "string", lit "convert to text"),
   (lit "number", lit "convert to number"),
   (lit "boolean", lit "convert to true/false"),
   (lit "contains", lit "contains"),
   (lit "starts-with", lit "starts with"),
   (lit "string-length", lit "get the length of"),
   (lit "normalize-space", lit "remove extra spaces from"),
   (lit "translate", lit "replace characters in"),
   (lit "upper-case", lit "convert to uppercase"),
   (lit "lower-case", lit "convert to lowercase")]

/-- `_determine_type`. -/
def determine_type (xpath : Str) : Str :=
  if (lit "$").isPrefixOf xpath then lit "variable"
  else if [lit "=", lit "!=", lit ">", lit "<", lit " and ", lit " or "].any
      (fun op => isSub op xpath) then lit "condition"
  else if functions.any (fun f => isSub (f.1 ++ lit "(") xpath) then lit "function"
  else lit "selection"

/-- `_humanize_name`.  `name.split(":", 1)[1]` keeps the text after the first
colon; the camel-case boundary split runs before the `_` and `-` replacements,
then the result is lower-cased and stripped; empty results become "unknown". -/
def humanizeName (name : Str) : Str :=
  let n1 := if ':' ∈ name then (name.dropWhile (· ≠ ':')).drop 1 else name
  let n2 := camelSplit n1
  let n3 := n2.map (fun c => if c = '_' then ' ' else c)
  let n4 := n3.map (fun c => if c = '-' then ' ' else c)
  let n5 := pyStrip (lowerStr n4)
  if n5.isEmpty then lit "unknown" else n5

/-- `_translate_operand`. -/
def translateOperand (operand0 : Str) : Str :=
  let operand := pyStrip operand0
  if ((lit "\x27").isPrefixOf operand && (lit "\x27").isSuffixOf operand) ||
      ((lit "\x22").isPrefixOf operand && (lit "\x22").isSuffixOf operand) then
    stripWhile (fun c => c = '\x27' || c = '\x22') operand
  else if pyIsdigit (operand.filter (· ≠ '.')) then operand
  else if (lit "$").isPrefixOf operand then lit "variable " ++ operand.drop 1
  else humanizeName operand

/-- The first `for op, op_text in self.operators.items()` loop of
`_translate_condition`: at the first operator occurring in `xpath` as a
substring, split at its first occurrence (`xpath.split(op, 1)` always yields
exactly two parts then) and render the comparison sentence. -/
def condScan : List (Str × Str) → Str → Option Str
  | [], _ => none
  | (op, opText) :: rest, xpath =>
    match splitOnce op xpath with
    | some (l, r) =>
      some (lit "Check if " ++ translateOperand (pyStrip l) ++ [' '] ++ opText
        ++ [' '] ++ translateOperand (pyStrip r))
    | none => condScan rest xpath

/-- `_translate_condition`.  The operator table is scanned first; only when no
table entry occurs as a substring are the case-insensitive `" and "` /
`" or "` regex splits tried, and finally the generic fallback. -/
def translateCondition (xpath : Str) : Str :=
  match condScan operators xpath with
  | some d => d
  | none =>
    if hand : isSub (lit " and ") (lowerStr xpath) = true then
      pyJoin (lit " AND ")
        ((reSplitIC (lit "and") xpath).attach.map
          (fun p => translateCondition (pyStrip p.1)))
    else if hor : isSub (lit " or ") (lowerStr xpath) = true then
      pyJoin (lit " OR ")
        ((reSplitIC (lit "or") xpath).attach.map
          (fun p => translateCondition (pyStrip p.1)))
    else lit "Evaluate condition: " ++ xpath
termination_by xpath.length
decreasing_by
  · have hsome : (findSep (lit "and") xpath).isSome = true := by
      apply findSep_isSome_of_sub (by decide) (by decide)
      have heq : ([' '] ++ lit "and" ++ [' ']) = lit " and " := by decide
      rw [heq]
      exact hand
    obtain ⟨pr, hpr⟩ := Option.isSome_iff_exists.mp hsome
    have hlt := reSplitIC_piece_lt hpr p.2
    have hst := stripWhile_length_le isSpace p.1
    simp only [pyStrip] at *
    omega
  · have hsome : (findSep (lit "or") xpath).isSome = true := by
      apply findSep_isSome_of_sub (by decide) (by decide)
      have heq : ([' '] ++ lit "or" ++ [' ']) = lit " or " := by decide
      rw [heq]
      exact hor
    obtain ⟨pr, hpr⟩ := Option.isSome_iff_exists.mp hsome
    have hlt := reSplitIC_piece_lt hpr p.2
    have hst := stripWhile_length_le isSpace p.1
    simp only [pyStrip] at *
    omega

/-- `_translate_predicate`. -/
def translatePredicate (predicate : Str) : Str :=
  if pyIsdigit predicate then lit "position " ++ predicate
  else if predicate = lit "last()" then lit "the last item"
  else if operators.any (fun op => isSub op.1 predicate) then translateCondition predicate
  else predicate

/-- `_translate_selection`.  A segment containing `[` is split at its first
`[` (`part.split("[", 1)`), and the predicate text loses every trailing `]`. -/
def translateSelection (xpath : Str) : Str :=
  let path := xpath.dropWhile (· = '/')
  let parts := (path.splitOn '/').filter (fun p => !p.isEmpty)
  if parts.isEmpty then lit "Select the root element"
  else
    let readable := parts.map (fun part =>
      if '[' ∈ part then
        humanizeName (part.takeWhile (· ≠ '[')) ++ lit " where " ++
          translatePredicate (rstripChar ']' ((part.dropWhile (· ≠ '[')).drop 1))
      else if (lit "@").isPrefixOf part then
        lit "the " ++ humanizeName (part.drop 1) ++ lit " attribute"
      else if part = lit "text()" then lit "the text content"
      else humanizeName part)
    if readable.length = 1 then lit "Select " ++ readable.headI
    else lit "Navigate to: " ++ pyJoin (lit " → ") readable

/-- `re.search(f"{func_name}\\(([^)]+)\\)", xpath)`: the leftmost occurrence
of `pat = func_name ++ "("` that is followed by at least one non-`)` character
and then a `)`; returns the text between the parentheses.  When a `pat`
occurrence has an empty or unclosed argument, the regex engine moves on to
later occurrences, as the recursive walk does. -/
def findFuncArgs (pat : Str) : Str → Option Str
  | [] => none
  | c :: t =>
    if pat.isPrefixOf (c :: t) then
      let rest := (c :: t).drop pat.length
      let run := rest.takeWhile (· ≠ ')')
      if !run.isEmpty && run.length < rest.length then some run
      else findFuncArgs pat t
    else findFuncArgs pat t

/-- The per-function rendering inside `_translate_function`'s loop body.
`none` models the fall-through for `contains`/`starts-with` with no comma in
the arguments (Python returns nothing there and the loop continues). -/
def funcBody (fname fdesc args : Str) : Option Str :=
  if fname = lit "count" ∨ fname = lit "sum" ∨ fname = lit "string-length" then
    some (pyCapitalize fdesc ++ [' '] ++ humanizeName args)
  else if fname = lit "concat" then
    some (lit "Combine: " ++
      pyJoin (lit " + ")
        ((args.splitOn ',').map (fun a =>
          stripWhile (fun c => c = '\x27' || c = '\x22') (pyStrip a))))
  else if fname = lit "substring" then
    some (lit "Extract part of " ++ humanizeName args)
  else if fname = lit "contains" ∨ fname = lit "starts-with" then
    match splitOnce [','] args with
    | some (a0, a1) =>
      some (lit "Check if " ++
        stripWhile (fun c => c = '\x27' || c = '\x22') (pyStrip a0) ++ [' '] ++ fdesc ++
        lit " \x27" ++ stripWhile (fun c => c = '\x27' || c = '\x22') (pyStrip a1) ++ lit "\x27")
    | none => none
  else
    some (pyCapitalize fdesc ++ [' '] ++ humanizeName args)

/-- The `for func_name, func_desc in self.functions.items()` loop of
`_translate_function`. -/
def funcScan : List (Str × Str) → Str → Option Str
  | [], _ => none
  | (fname, fdesc) :: rest, xpath =>
    match findFuncArgs (fname ++ ['(']) xpath with
    | some args =>
      match funcBody fname fdesc args with
      | some r => some r
      | none => funcScan rest xpath
    | none => funcScan rest xpath

/-- `_translate_function`. -/
def translateFunction (xpath : Str) : Str :=
  (funcScan functions xpath).getD (lit "Apply function: " ++ xpath)

/-- `_translate_variable`. -/
def translateVariable (xpath : Str) : Str :=
  let varName := xpath.dropWhile (· = '$')
  if '/' ∈ varName then
    let parts := varName.splitOn '/'
    lit "Get " ++ pyJoin (lit " → ") ((parts.drop 1).map humanizeName) ++
      lit " from variable \x27" ++ parts.headI ++ lit "\x27"
  else lit "Use the value of variable \x27" ++ varName ++ lit "\x27"

/-- `_translate_generic`. -/
def translateGeneric (xpath : Str) : Str :=
  lit "XPath expression: " ++ humanizeName xpath

/-- `_generate_steps`: one step per non-empty `/`-separated segment, emitted
for any expression containing `/` that does not start with `$`, with
`enumerate(parts, 1)` indices. -/
def generate_steps (xpath : Str) : List Str :=
  if '/' ∈ xpath ∧ ¬ (lit "$").isPrefixOf xpath then
    let parts := (xpath.splitOn '/').filter (fun p => !p.isEmpty)
    parts.enum.map (fun st =>
      if (lit "@").isPrefixOf st.2 then
        lit "Step " ++ natToStr (st.1 + 1) ++ lit ": Access the " ++
          humanizeName (st.2.drop 1) ++ lit " attribute"
      else if '[' ∈ st.2 then
        lit "Step " ++ natToStr (st.1 + 1) ++ lit ": Select " ++
          humanizeName (st.2.takeWhile (· ≠ '[')) ++ lit " with specific criteria"
      else
        lit "Step " ++ natToStr (st.1 + 1) ++ lit ": Navigate to " ++ humanizeName st.2)
  else []

/-- `_calculate_confidence`. -/
def calculate_confidence (xpath : Str) : Str :=
  if xpath.count '/' ≤ 2 ∧ '[' ∉ xpath ∧ ∀ op ∈ operators, isSub op.1 xpath = false then
    lit "high"
  else if 2 < xpath.count '[' ∨ 3 < xpath.count '(' then lit "low"
  else lit "medium"

/-- A translation context: a small string-keyed mapping (Python dict). -/
abbrev Ctx := List (Str × Str)

structure DataFlow where
  source : Str
  target : Str
  operation : Str
deriving DecidableEq

/-- `_extract_data_flow`: `context.get` with default "Unknown" (a key that is
present keeps its value, even an empty one). -/
def extract_data_flow (xpath : Str) (context : Ctx) : DataFlow :=
  { source := (context.lookup (lit "source")).getD (lit "Unknown"),
    target := (context.lookup (lit "target")).getD (lit "Unknown"),
    operation := determine_type xpath }

structure TranslationResult where
  description : Str
  steps : List Str
  confidence : Str
  typ : Str
  data_flow : DataFlow
deriving DecidableEq

/-- `translate`, as a state transformer over the context dictionary it is
handed (`none` models the default argument `context=None`).  The method only
ever reads the dictionary (`context.get`), so the returned dictionary is the
one that was passed; `context = context or {}` only rebinds the local name. -/
def translateSt (xpath0 : Str) (context : Option Ctx) : TranslationResult × Option Ctx :=
  let ctx := (context.getD [])
  let xpath := pyStrip xpath0
  let t := determine_type xpath
  ({ description :=
      if t = lit "selection" then translateSelection xpath
      else if t = lit "condition" then translateCondition xpath
      else if t = lit "function" then translateFunction xpath
      else if t = lit "variable" then translateVariable xpath
      else translateGeneric xpath,
     steps := generate_steps xpath,
     confidence := calculate_confidence xpath,
     typ := t,
     data_flow := extract_data_flow xpath ctx }, context)

/-- The value `translate` returns. -/
def translate (xpath : Str) (context : Option Ctx) : TranslationResult :=
  (translateSt xpath context).1

/-! ## The extractor (src/backend/xpath_parser.py, class XPathParser) -/

/-- An `xml.etree.ElementTree` element: tag, attributes, direct text content
(the text before the first child; `none` models Python `None`), children. -/
inductive Elem where
  | mk : Str → List (Str × Str) → Option Str → List Elem → Elem

def Elem.tag : Elem → Str
  | .mk t _ _ _ => t

def Elem.attrs : Elem → List (Str × Str)
  | .mk _ a _ _ => a

def Elem.text : Elem → Option Str
  | .mk _ _ tx _ => tx

def Elem.children : Elem → List Elem
  | .mk _ _ _ ch => ch

/-- `element.get(key, default)`. -/
def getAttr (e : Elem) (k d : Str) : Str := (e.attrs.lookup k).getD d

mutual
/-- All strict descendants of an element in document (pre)order, as
`root.findall(".//tag")` enumerates them before filtering by tag. -/
def descendants : Elem → List Elem
  | .mk _ _ _ ch => descendantsList ch

def descendantsList : List Elem → List Elem
  | [] => []
  | e :: rest => e :: descendants e ++ descendantsList rest
end

/-- `root.iter()`: the element itself followed by its descendants, preorder. -/
def iterAll (root : Elem) : List Elem := root :: descendants root

/-- `_is_xpath`. -/
def is_xpath (text : Str) : Bool :=
  if text.isEmpty || text.length < 3 then false
  else
    [lit "/", lit "@", lit "[", lit "]",
     lit "text()", lit "node()",
     lit "ancestor::", lit "child::", lit "parent::",
     lit "following::", lit "preceding::",
     lit "count(", lit "sum(", lit "concat(",
     lit "substring(", lit "string(",
     lit "$"].any (fun ind => isSub ind text)

/-- `_extract_context` (dict built in insertion order; `schema` only when a
`schemaRef` attribute is present and non-empty). -/
def extract_context (e : Elem) : Ctx :=
  let base := [(lit "source", getAttr e (lit "source") []),
               (lit "target", getAttr e (lit "target") []),
               (lit "type", getAttr e (lit "type") (lit "mapping"))]
  let sr := getAttr e (lit "schemaRef") []
  if sr.isEmpty then base else base ++ [(lit "schema", sr)]

/-- One extracted expression record.  `uuid.uuid4()` produces a fresh opaque
identifier per record; it is modelled as the record's position in the final
list (a fresh unique token), which no claim under test depends on. -/
structure ExpressionRecord where
  id : Nat
  expression : Str
  location : Str
  activity : Str
  context : Ctx
deriving DecidableEq

/-- Strategy 1 of `_extract_xpaths`: `root.findall(".//mapping")`. -/
def mapperRecs (root : Elem) : List ExpressionRecord :=
  (descendants root).filterMap (fun m =>
    if m.tag = lit "mapping" then
      let x := getAttr m (lit "expression") []
      if !x.isEmpty && is_xpath x then
        some { id := 0, expression := x, location := lit "Mapper",
               activity := getAttr m (lit "target") (lit "Unknown"),
               context := extract_context m }
      else none
    else none)

/-- Strategy 2: `root.findall(".//transition")`. -/
def transitionRecs (root : Elem) : List ExpressionRecord :=
  (descendants root).filterMap (fun tr =>
    if tr.tag = lit "transition" then
      let x := getAttr tr (lit "condition") []
      if !x.isEmpty && is_xpath x then
        some { id := 0, expression := x, location := lit "Transition Condition",
               activity := getAttr tr (lit "to") (lit "Unknown"),
               context := [(lit "type", lit "condition")] }
      else none
    else none)

/-- Strategy 3: `root.findall(".//config")` (inline text). -/
def configRecs (root : Elem) : List ExpressionRecord :=
  (descendants root).filterMap (fun a =>
    if a.tag = lit "config" then
      match a.text with
      | some tx =>
        if !tx.isEmpty && is_xpath (pyStrip tx) then
          some { id := 0, expression := pyStrip tx, location := lit "Activity Configuration",
                 activity := getAttr a (lit "name") (lit "Unknown"),
                 context := [] }
        else none
      | none => none
    else none)

/-- Strategy 4: the generic text scan over `root.iter()`.  A record is only
appended when no record already in the accumulated list (from any strategy,
including earlier generic hits) has the same expression text. -/
def genericFold (acc : List ExpressionRecord) : List Elem → List ExpressionRecord
  | [] => acc
  | e :: rest =>
    match e.text with
    | some tx =>
      if !tx.isEmpty && is_xpath (pyStrip tx) then
        if acc.any (fun x => x.expression = pyStrip tx) then genericFold acc rest
        else
          genericFold
            (acc ++ [{ id := 0, expression := pyStrip tx, location := e.tag,
                       activity := getAttr e (lit "name") (lit "Unknown"),
                       context := [] }]) rest
      else genericFold acc rest
    | none => genericFold acc rest

/-- `_extract_xpaths`: the four strategies append to one list in order;
the ids are the fresh unique tokens handed out along the way. -/
def extract_xpaths (root : Elem) : List ExpressionRecord :=
  let base := mapperRecs root ++ transitionRecs root ++ configRecs root
  (genericFold base (iterAll root)).enum.map (fun p => { p.2 with id := p.1 })

structure Metadata where
  process_name : Str
  description : Str
  varList : List (Str × Str)
  schemas : List Str
deriving DecidableEq

/-- `_extract_metadata`. -/
def extract_metadata (root : Elem) : Metadata :=
  { process_name := getAttr root (lit "name") (lit "Unknown"),
    description :=
      match (descendants root).find? (fun e => e.tag = lit "description") with
      | some e =>
        match e.text with
        | some t => if t.isEmpty then [] else pyStrip t
        | none => []
      | none => [],
    varList := (descendants root).filterMap (fun v =>
      if v.tag = lit "processVariables" then
        let n := getAttr v (lit "name") []
        if n.isEmpty then none else some (n, getAttr v (lit "type") [])
      else none),
    schemas := [] }

/-- `parse_file`, over the outcome of `ET.parse` (reading and parsing the file
is the boundary I/O; `Except.error` is a raised `ET.ParseError` carrying its
message).  A parse failure is re-raised as `ValueError` with the wrapped
message and nothing else happens: no retry, no partial result. -/
def parse_file (parsed : Except Str Elem) : Except Str (Metadata × List ExpressionRecord) :=
  match parsed with
  | Except.error e => Except.error (lit "Failed to parse XML file: " ++ e)
  | Except.ok root => Except.ok (extract_metadata root, extract_xpaths root)

/-! ## Claim theorems -/

/-- The document of claim C2: the same trimmed text `$a/b` appears both as a
`mapping` element's `expression` attribute (which passes `_is_xpath`) and as
the direct text content of an unrelated element `foo`. -/
def c2doc : Elem :=
  .mk (lit "process") [] none
    [.mk (lit "mapping") [(lit "expression", lit "$a/b"), (lit "target", lit "T")] none [],
     .mk (lit "foo") [] (some (lit "$a/b")) []]

/-- C1, counterexample: `translate("$orderData/Order/TotalAmount > 1000",
{type: "condition"})` does not classify the expression as `condition` and does
not produce a `Check if ...` description: the leading-`$` rule of
`_determine_type` fires first. -/
theorem C1_cex :
    (translate (lit "$orderData/Order/TotalAmount > 1000")
        (some [(lit "type", lit "condition")])).typ ≠ lit "condition" ∧
    ¬ (lit "Check if ").isPrefixOf
      (translate (lit "$orderData/Order/TotalAmount > 1000")
        (some [(lit "type", lit "condition")])).description := by
  decide

/-- C1, amended: the expression starts with `$`, so `_determine_type`
classifies it as `variable` and `_translate_variable` renders it; the `>`
comparison is never split, it survives inside the humanized last segment. -/
theorem C1_amended :
    (translate (lit "$orderData/Order/TotalAmount > 1000")
        (some [(lit "type", lit "condition")])).typ = lit "variable" ∧
    (translate (lit "$orderData/Order/TotalAmount > 1000")
        (some [(lit "type", lit "condition")])).description =
      lit "Get order → total amount > 1000 from variable \x27orderData\x27" := by
  decide

/-- C2, counterexample: in `c2doc` the premise of the claim holds, yet exactly
one record with expression `$a/b` is extracted, not two: the generic text scan
deduplicates against the whole accumulated list, including the Mapper record. -/
theorem C2_cex :
    getAttr (.mk (lit "mapping") [(lit "expression", lit "$a/b"), (lit "target", lit "T")]
        none []) (lit "expression") [] = lit "$a/b" ∧
    is_xpath (lit "$a/b") = true ∧
    ((extract_xpaths c2doc).filter (fun rec => rec.expression = lit "$a/b")).length = 1 ∧
    ((extract_xpaths c2doc).filter (fun rec => rec.expression = lit "$a/b")).length ≠ 2 := by
  decide

/-- When the accumulated list already holds a record with expression `E`, the
generic text-scan phase never adds another record with expression `E`: every
candidate with that text fails the `not any(x["expression"] == ...)` check. -/
theorem genericFold_count (E : Str) :
    ∀ (es : List Elem) (acc : List ExpressionRecord),
      acc.filter (fun r => r.expression = E) ≠ [] →
      ((genericFold acc es).filter (fun r => r.expression = E)).length =
        (acc.filter (fun r => r.expression = E)).length := by
  intro es
  induction es with
  | nil => intro acc h; rfl
  | cons e rest ih =>
    intro acc h
    rw [genericFold]
    split
    · split_ifs with hcond hdup
      · exact ih acc h
      · rename_i tx htx
        have hex : ∃ r0 ∈ acc, r0.expression = E := by
          rcases hfl : acc.filter (fun r => r.expression = E) with _ | ⟨r0, t0⟩
          · exact absurd hfl h
          · have hr0 : r0 ∈ acc.filter (fun r => r.expression = E) := by
              rw [hfl]; exact List.mem_cons_self r0 t0
            have := List.mem_filter.mp hr0
            exact ⟨r0, this.1, by simpa using this.2⟩
        have hne : pyStrip tx ≠ E := by
          intro hEq
          apply hdup
          rw [List.any_eq_true]
          obtain ⟨r0, hr0mem, hr0E⟩ := hex
          exact ⟨r0, hr0mem, by simp [hr0E, hEq]⟩
        have hfilter :
            ((acc ++ [({ id := 0, expression := pyStrip tx, location := e.tag,
                         activity := getAttr e (lit "name") (lit "Unknown"),
                         context := [] } : ExpressionRecord)]).filter
              (fun r => r.expression = E)) =
              acc.filter (fun r => r.expression = E) := by
          rw [List.filter_append]
          simp [hne]
        rw [ih _ (by rw [hfilter]; exact h), hfilter]
      · exact ih acc h
    · exact ih acc h

/-- Reassigning the fresh ids does not change which records carry a given
expression text. -/
theorem filter_len_enumMap (E : Str) :
    ∀ (l : List ExpressionRecord) (n : Nat),
      (((List.enumFrom n l).map (fun p => { p.2 with id := p.1 })).filter
        (fun r => r.expression = E)).length =
      (l.filter (fun r => r.expression = E)).length := by
  intro l
  induction l with
  | nil => intro n; rfl
  | cons x t ih =>
    intro n
    simp only [List.enumFrom, List.map_cons, List.filter_cons]
    by_cases hx : x.expression = E
    · simp [hx, ih (n + 1)]
    · simp [hx, ih (n + 1)]

/-- C2, amended: whenever the attribute-based strategies (in particular the
Mapper strategy, for a mapping `expression` attribute passing the likelihood
test) have already produced a record with a given expression text, the generic
text-scan strategy emits no additional record with that text — its
deduplication check runs against the whole accumulated list, records of other
strategies included — so extraction returns exactly as many records with that
text as the attribute-based strategies produced; for the claimed scenario that
is one record (the Mapper one), not two. -/
theorem C2_amended (root : Elem) (E : Str)
    (hmap : (mapperRecs root).filter (fun r => r.expression = E) ≠ []) :
    ((extract_xpaths root).filter (fun r => r.expression = E)).length =
      ((mapperRecs root ++ transitionRecs root ++ configRecs root).filter
        (fun r => r.expression = E)).length := by
  have hbase : ((mapperRecs root ++ transitionRecs root ++ configRecs root).filter
      (fun r => r.expression = E)) ≠ [] := by
    rw [List.filter_append, List.filter_append]
    simp only [ne_eq, List.append_eq_nil]
    intro hc
    exact hmap hc.1.1
  have hlen := filter_len_enumMap E
    (genericFold (mapperRecs root ++ transitionRecs root ++ configRecs root) (iterAll root)) 0
  exact hlen.trans (genericFold_count E (iterAll root) _ hbase)

/-- C2, witness for the amended claim: in `c2doc` the Mapper strategy produces
a record with expression `$a/b`, and the full extraction holds exactly as many
`$a/b` records as the attribute-based strategies produced. -/
theorem C2_amended_witness :
    ((extract_xpaths c2doc).filter (fun r => r.expression = lit "$a/b")).length =
      ((mapperRecs c2doc ++ transitionRecs c2doc ++ configRecs c2doc).filter
        (fun r => r.expression = lit "$a/b")).length :=
  C2_amended c2doc (lit "$a/b") (by decide)

/-- C5, counterexample: `translate("count(//Items/Item)")` does not return the
description `Count the number of items item`: `_humanize_name` lower-cases the
argument but keeps its `/` separators. -/
theorem C5_cex :
    (translate (lit "count(//Items/Item)") none).description ≠
      lit "Count the number of items item" := by
  decide

/-- C5, amended: `translate("count(//Items/Item)")` classifies as `function`,
matches `count(`, returns the description `Count the number of //items/item`
(the argument is lower-cased but its slashes are kept), and confidence
`medium`. -/
theorem C5_amended :
    (translate (lit "count(//Items/Item)") none).typ = lit "function" ∧
    (translate (lit "count(//Items/Item)") none).description =
      lit "Count the number of //items/item" ∧
    (translate (lit "count(//Items/Item)") none).confidence = lit "medium" := by
  decide

/-- C6, counterexample: `count(//Items/Item)` is classified `function`, not a
path selection, yet its steps list is not empty: `_generate_steps` looks only
for `/` and a missing leading `$`, not at the classified type. -/
theorem C6_cex :
    (translate (lit "count(//Items/Item)") none).typ ≠ lit "selection" ∧
    (translate (lit "count(//Items/Item)") none).steps ≠ [] := by
  decide

/-- C8: the four humanization examples. -/
theorem C8_thm :
    humanizeName (lit "OrderId") = lit "order id" ∧
    humanizeName (lit "order_total") = lit "order total" ∧
    humanizeName (lit "ns:Element-Name") = lit "element name" ∧
    humanizeName (lit "") = lit "unknown" := by
  decide

/-- C9: when parsing fails, `parse_file` surfaces the error to the caller (the
`ET.ParseError` is re-raised as a `ValueError` wrapping its message) with no
retry and no partial result: no metadata and no expression records. -/
theorem C9_thm (e : Str) :
    parse_file (Except.error e) = Except.error (lit "Failed to parse XML file: " ++ e) ∧
    ∀ out, parse_file (Except.error e) ≠ Except.ok out := by
  refine ⟨rfl, fun out h => ?_⟩
  simp [parse_file] at h

/-- C10: `translate` only reads the context dictionary, so the dictionary that
comes out of the call is exactly the one that was passed (also when no context
is passed); `data_flow` reads `source`/`target` with default `Unknown` and the
classification as `operation`. -/
theorem C10_thm (s : Str) (ctx : Option Ctx) :
    (translateSt s ctx).2 = ctx ∧
    (translate s ctx).data_flow.source =
      ((ctx.getD []).lookup (lit "source")).getD (lit "Unknown") ∧
    (translate s ctx).data_flow.target =
      ((ctx.getD []).lookup (lit "target")).getD (lit "Unknown") ∧
    (translate s ctx).data_flow.operation = determine_type (pyStrip s) :=
  ⟨rfl, rfl, rfl, rfl⟩

theorem isSub_false_of_super {a b s : Str} (hab : isSub a b = true)
    (h : isSub a s = false) : isSub b s = false := by
  cases hb : isSub b s with
  | false => rfl
  | true => rw [isSub_of_isSub_isSub hab hb] at h; exact h

/-- C3, counterexample: `foo and bar` contains no comparison operator but does
contain lower-case `" and "`; the claim predicts the recursive sub-condition
split (`Evaluate condition: foo AND Evaluate condition: bar`), but the code
returns `Check if foo AND bar`: the operator table itself contains `and`, so
the first loop of `_translate_condition` already fires. -/
theorem C3_cex :
    translateCondition (lit "foo and bar") ≠
      lit "Evaluate condition: foo AND Evaluate condition: bar" ∧
    translateCondition (lit "foo and bar") = lit "Check if foo AND bar" := by
  have h : translateCondition (lit "foo and bar") = lit "Check if foo AND bar" := by
    rw [translateCondition.eq_def]
    decide
  exact ⟨by rw [h]; decide, h⟩

/-- C3, amended: the operator table scanned by the first loop of
`_translate_condition` also contains the tokens `and`, `or`, `not`, so a
condition expression with no comparison-operator token whose text contains the
substring `and` (in particular one containing lower-case `" and "`) is split
once at the first occurrence of `and` and rendered as the comparison sentence
`Check if {left} AND {right}`; the recursive sub-condition split joined with
`" AND "` only runs when no operator-table token at all occurs as a substring
(e.g. when the word appears in upper case). -/
theorem C3_amended (xpath l r : Str)
    (h1 : isSub (lit "=") xpath = false)
    (h2 : isSub (lit ">") xpath = false)
    (h3 : isSub (lit "<") xpath = false)
    (h4 : splitOnce (lit "and") xpath = some (l, r)) :
    translateCondition xpath =
      lit "Check if " ++ translateOperand (pyStrip l) ++ lit " AND " ++
        translateOperand (pyStrip r) := by
  have hne : isSub (lit "!=") xpath = false := isSub_false_of_super (by decide) h1
  have hge : isSub (lit ">=") xpath = false := isSub_false_of_super (by decide) h1
  have hle : isSub (lit "<=") xpath = false := isSub_false_of_super (by decide) h1
  have e1 := splitOnce_none_of_not_sub h1
  have e2 := splitOnce_none_of_not_sub hne
  have e3 := splitOnce_none_of_not_sub h2
  have e4 := splitOnce_none_of_not_sub hge
  have e5 := splitOnce_none_of_not_sub h3
  have e6 := splitOnce_none_of_not_sub hle
  have hscan : condScan operators xpath =
      some (lit "Check if " ++ translateOperand (pyStrip l) ++ [' '] ++ lit "AND"
        ++ [' '] ++ translateOperand (pyStrip r)) := by
    simp only [operators, condScan, e1, e2, e3, e4, e5, e6, h4]
  rw [translateCondition.eq_def, hscan]
  have hfmt : ([' '] : Str) ++ lit "AND" ++ [' '] = lit " AND " := by decide
  simp only [← hfmt, List.append_assoc]

/-- C3, witness for the amended claim at the concrete input `foo and bar`. -/
theorem C3_amended_witness :
    translateCondition (lit "foo and bar") =
      lit "Check if " ++ translateOperand (pyStrip (lit "foo ")) ++ lit " AND " ++
        translateOperand (pyStrip (lit " bar")) :=
  C3_amended (lit "foo and bar") (lit "foo ") (lit " bar")
    (by decide) (by decide) (by decide) (by decide)

theorem condScan_some_ne : ∀ (l : List (Str × Str)) (s r : Str),
    condScan l s = some r → r ≠ [] := by
  intro l
  induction l with
  | nil => intro s r h; simp [condScan] at h
  | cons p rest ih =>
    intro s r h
    obtain ⟨op, optext⟩ := p
    rw [condScan] at h
    cases hsp : splitOnce op s with
    | some pr =>
      rw [hsp] at h
      obtain ⟨l1, r1⟩ := pr
      simp at h
      rw [← h]
      simp [lit]
    | none =>
      rw [hsp] at h
      exact ih s r h

theorem pyJoin_ne_nil {sep : Str} {l : List Str} (hl : l ≠ [])
    (hh : ∀ x ∈ l, x ≠ []) : pyJoin sep l ≠ [] := by
  match l with
  | [x] => simpa [pyJoin] using hh x (by simp)
  | x :: y :: t =>
    have hx := hh x (by simp)
    simp [pyJoin, List.append_eq_nil]
    intro hc
    exact absurd hc hx

theorem translateCondition_ne_aux :
    ∀ n : Nat, ∀ s : Str, s.length ≤ n → translateCondition s ≠ [] := by
  intro n
  induction n using Nat.strong_induction_on with
  | _ n ih =>
  intro s hs
  rw [translateCondition.eq_def]
  cases hcs : condScan operators s with
  | some d =>
    simpa using condScan_some_ne operators s d hcs
  | none =>
    simp only
    by_cases hand : isSub (lit " and ") (lowerStr s) = true
    · rw [dif_pos hand]
      apply pyJoin_ne_nil
      · simp [reSplitIC_ne_nil]
      · intro x hx
        simp only [List.mem_map, List.mem_attach, true_and, Subtype.exists] at hx
        obtain ⟨p, hp, hxeq⟩ := hx
        subst hxeq
        have hsome : (findSep (lit "and") s).isSome = true := by
          apply findSep_isSome_of_sub (by decide) (by decide)
          have heq : ([' '] ++ lit "and" ++ [' ']) = lit " and " := by decide
          rw [heq]
          exact hand
        obtain ⟨pr, hpr⟩ := Option.isSome_iff_exists.mp hsome
        have hlt := reSplitIC_piece_lt hpr hp
        have hst := stripWhile_length_le isSpace p
        exact ih (pyStrip p).length (by simp only [pyStrip] at *; omega) (pyStrip p) le_rfl
    · rw [dif_neg hand]
      by_cases hor : isSub (lit " or ") (lowerStr s) = true
      · rw [dif_pos hor]
        apply pyJoin_ne_nil
        · simp [reSplitIC_ne_nil]
        · intro x hx
          simp only [List.mem_map, List.mem_attach, true_and, Subtype.exists] at hx
          obtain ⟨p, hp, hxeq⟩ := hx
          subst hxeq
          have hsome : (findSep (lit "or") s).isSome = true := by
            apply findSep_isSome_of_sub (by decide) (by decide)
            have heq : ([' '] ++ lit "or" ++ [' ']) = lit " or " := by decide
            rw [heq]
            exact hor
          obtain ⟨pr, hpr⟩ := Option.isSome_iff_exists.mp hsome
          have hlt := reSplitIC_piece_lt hpr hp
          have hst := stripWhile_length_le isSpace p
          exact ih (pyStrip p).length (by simp only [pyStrip] at *; omega) (pyStrip p) le_rfl
      · rw [dif_neg hor]
        simp [lit]

theorem translateCondition_ne (s : Str) : translateCondition s ≠ [] :=
  translateCondition_ne_aux s.length s le_rfl

theorem translateSelection_ne (s : Str) : translateSelection s ≠ [] := by
  unfold translateSelection
  dsimp only
  split
  · decide
  · split
    · simp [lit, List.append_eq_nil]
    · simp [lit, List.append_eq_nil]

theorem translateVariable_ne (s : Str) : translateVariable s ≠ [] := by
  unfold translateVariable
  dsimp only
  split
  · simp [lit, List.append_eq_nil]
  · simp [lit, List.append_eq_nil]

theorem translateGeneric_ne (s : Str) : translateGeneric s ≠ [] := by
  simp [translateGeneric, lit, List.append_eq_nil]

theorem pyCapitalize_ne {s : Str} (h : s ≠ []) : pyCapitalize s ≠ [] := by
  cases s with
  | nil => exact absurd rfl h
  | cons c t => simp [pyCapitalize]

theorem funcBody_ne {fname fdesc args r : Str} (hd : fdesc ≠ [])
    (h : funcBody fname fdesc args = some r) : r ≠ [] := by
  unfold funcBody at h
  split_ifs at h with hb1 hb2 hb3 hb4
  · simp at h; rw [← h]; simp [List.append_eq_nil, pyCapitalize_ne hd]
  · simp at h; rw [← h]; simp [lit, List.append_eq_nil]
  · simp at h; rw [← h]; simp [lit, List.append_eq_nil]
  · cases hsp : splitOnce [','] args with
    | some pr =>
      rw [hsp] at h
      obtain ⟨a0, a1⟩ := pr
      simp at h
      rw [← h]
      simp [lit, List.append_eq_nil]
    | none => rw [hsp] at h; simp at h
  · simp at h; rw [← h]; simp [List.append_eq_nil, pyCapitalize_ne hd]

theorem funcScan_some_ne : ∀ (l : List (Str × Str)) (s r : Str),
    (∀ f ∈ l, f.2 ≠ []) → funcScan l s = some r → r ≠ [] := by
  intro l
  induction l with
  | nil => intro s r _ h; simp [funcScan] at h
  | cons p rest ih =>
    intro s r hall h
    obtain ⟨fname, fdesc⟩ := p
    rw [funcScan] at h
    split at h
    · split at h
      · rename_i hfb
        simp at h
        rw [← h]
        exact funcBody_ne (hall (fname, fdesc) (by simp)) hfb
      · exact ih s r (fun f hf => hall f (by simp [hf])) h
    · exact ih s r (fun f hf => hall f (by simp [hf])) h

theorem translateFunction_ne (s : Str) : translateFunction s ≠ [] := by
  unfold translateFunction
  cases hfs : funcScan functions s with
  | some r =>
    simpa using funcScan_some_ne functions s r (by decide) hfs
  | none => simp [lit, List.append_eq_nil]

/-- C4: for every input string and every context (also the absent one),
`translate` returns a non-empty description; the embedding is a total
function, mirroring that the Python code raises no exception on string
input. -/
theorem C4_thm (s : Str) (ctx : Option Ctx) : (translate s ctx).description ≠ [] := by
  show (if determine_type (pyStrip s) = lit "selection" then translateSelection (pyStrip s)
    else if determine_type (pyStrip s) = lit "condition" then translateCondition (pyStrip s)
    else if determine_type (pyStrip s) = lit "function" then translateFunction (pyStrip s)
    else if determine_type (pyStrip s) = lit "variable" then translateVariable (pyStrip s)
    else translateGeneric (pyStrip s)) ≠ []
  split_ifs
  · exact translateSelection_ne _
  · exact translateCondition_ne _
  · exact translateFunction_ne _
  · exact translateVariable_ne _
  · exact translateGeneric_ne _

/-- C6, amended: the number of steps depends only on the (stripped) expression
text, never on the classified type: one step per non-empty `/`-separated
segment whenever the text contains `/` and does not start with `$`, and no
steps otherwise — so condition-, function- or selection-classified expressions
containing `/` all get steps, and any expression without `/` (or starting with
`$`) gets none. -/
theorem C6_amended (s : Str) (ctx : Option Ctx) :
    (translate s ctx).steps.length =
      (if '/' ∈ pyStrip s ∧ ¬ (lit "$").isPrefixOf (pyStrip s) then
        (((pyStrip s).splitOn '/').filter (fun p => !p.isEmpty)).length
      else 0) := by
  have hsteps : (translate s ctx).steps = generate_steps (pyStrip s) := rfl
  rw [hsteps]
  unfold generate_steps
  by_cases h : '/' ∈ pyStrip s ∧ ¬ (lit "$").isPrefixOf (pyStrip s)
  · rw [if_pos h, if_pos h]
    simp
  · rw [if_neg h, if_neg h]
    simp

/-- C7: the three confidence bands, characterized exactly as the ordered rule
computes them — `high` iff at most two `/`, no `[` and no operator-table token
present; otherwise `low` iff more than two `[` or more than three `(`;
`medium` exactly otherwise.  The three characterizations are mutually
exclusive and exhaustive. -/
theorem C7_thm (s : Str) :
    (calculate_confidence s = lit "high" ↔
      (s.count '/' ≤ 2 ∧ '[' ∉ s ∧ ∀ op ∈ operators, isSub op.1 s = false)) ∧
    (calculate_confidence s = lit "low" ↔
      (¬ (s.count '/' ≤ 2 ∧ '[' ∉ s ∧ ∀ op ∈ operators, isSub op.1 s = false) ∧
        (2 < s.count '[' ∨ 3 < s.count '('))) ∧
    (calculate_confidence s = lit "medium" ↔
      (¬ (s.count '/' ≤ 2 ∧ '[' ∉ s ∧ ∀ op ∈ operators, isSub op.1 s = false) ∧
        ¬ (2 < s.count '[' ∨ 3 < s.count '('))) := by
  have d1 : lit "high" ≠ lit "low" := by decide
  have d2 : lit "high" ≠ lit "medium" := by decide
  have d3 : lit "low" ≠ lit "medium" := by decide
  unfold calculate_confidence
  split_ifs with h1 h2
  · exact ⟨iff_of_true rfl h1, iff_of_false d1 (fun hc => hc.1 h1),
      iff_of_false d2 (fun hc => hc.1 h1)⟩
  · exact ⟨iff_of_false (fun he => d1 he.symm) h1, iff_of_true rfl ⟨h1, h2⟩,
      iff_of_false d3 (fun hc => hc.2 h2)⟩
  · exact ⟨iff_of_false (fun he => d2 he.symm) h1,
      iff_of_false (fun he => d3 he.symm) (fun hc => h2 hc.2),
      iff_of_true rfl ⟨h1, h2⟩⟩

end XP
